import Mathlib

/-!
# Verification of the `yt2srt` transcription-to-subtitle pipeline

A shallow embedding of `src/yt2srt.py` in Lean 4, and proofs of the claims
the specification makes about it.  Python floats are modelled as rationals
(`ℚ`): every float value is a rational number, and the arithmetic the code
performs at the magnitudes involved (floor division, modulo, subtraction of
the integer part, multiplication by 1000) is exact there, so the rational
model is faithful.  The filesystem is modelled as a boolean existence
predicate on absolute path strings (the working directory is the process
current directory throughout, so a relative query `os.path.exists f` is the
query at `abspath f`).  The two external collaborators — the `yt-dlp`
download subprocess and the `mlx_whisper.transcribe` engine — are oracle
parameters of the functions that invoke them.
-/

namespace Yt2Srt

/-! ## Decimal rendering (model of the Python format spec `{n:0wd}`)

Decimal digits, zero-padded on the left to a minimum width, the sign
participating in the width for negative numbers. -/

/-- ASCII digit character for `d < 10`. -/
def digitChar (d : Nat) : Char := Char.ofNat (48 + d)

/-- Decimal digits of a natural number, most significant first.
Fuel-structured so that the kernel can evaluate it; `decDigits` always
supplies enough fuel. -/
def decDigitsAux : Nat → Nat → List Char → List Char
  | 0, _, acc => acc
  | fuel + 1, n, acc =>
    if n < 10 then digitChar n :: acc
    else decDigitsAux fuel (n / 10) (digitChar (n % 10) :: acc)

/-- Decimal digit characters of `n` (model of Python `str(n)` for `n ≥ 0`). -/
def decDigits (n : Nat) : List Char := decDigitsAux (n + 1) n []

/-- Python `f"{n:0wd}"` for a natural number `n`: decimal digits left-padded
with `'0'` to width `w`. -/
def fmtNat (w : Nat) (n : Nat) : List Char :=
  List.replicate (w - (decDigits n).length) '0' ++ decDigits n

/-- Python `f"{i:0wd}"` for an integer `i`: for negatives the sign comes
first and counts toward the width. -/
def fmtInt (w : Nat) (i : Int) : List Char :=
  if i < 0 then '-' :: fmtNat (w - 1) i.natAbs else fmtNat w i.toNat

/-! ## Rational model of the Python numeric primitives -/

/-- Executable floor of a rational (equal to `Int.floor`, see
`ratFloor_eq_floor`; spelled out so that the kernel can evaluate it). -/
def ratFloor (q : ℚ) : ℤ := q.num.fdiv q.den

/-- Python `int()` applied to a (rational-valued) float: truncation toward
zero. -/
def pyTrunc (q : ℚ) : ℤ := if q < 0 then -ratFloor (-q) else ratFloor q

/-- Python float `%`: `q - n * (q // n)`, which lies in `[0, n)` for `n > 0`
(the source only uses the divisors `3600` and `60`). -/
def pymod (q n : ℚ) : ℚ := q - n * (ratFloor (q / n) : ℚ)

/-! ## `sec_to_timestamp` (source lines 126–131)

```python
def sec_to_timestamp(sec: float):
    hours = int(sec // 3600)
    minutes = int((sec % 3600) // 60)
    seconds = int(sec % 60)
    milliseconds = int((sec - int(sec)) * 1000)
    return f"{hours:02}:{minutes:02}:{seconds:02},{milliseconds:03}"
```
`int(x // y)` composes truncation with floor division, whose value is plain
`⌊x / y⌋` because the floor division already yields an integral value. -/
def sec_to_timestamp (sec : ℚ) : String :=
  let hours : ℤ := ratFloor (sec / 3600)
  let minutes : ℤ := ratFloor (pymod sec 3600 / 60)
  let seconds : ℤ := pyTrunc (pymod sec 60)
  let milliseconds : ℤ := pyTrunc ((sec - (pyTrunc sec : ℚ)) * 1000)
  ⟨fmtInt 2 hours ++ ':' :: fmtInt 2 minutes ++ ':' :: fmtInt 2 seconds ++
    ',' :: fmtInt 3 milliseconds⟩

/-- Closed form of the timestamp of a nonnegative time expressed by its
total whole milliseconds `M` (see `sec_to_timestamp_eq`): a purely
natural-number computation that the kernel can evaluate. -/
def timestampOfMs (M : Nat) : String :=
  ⟨fmtNat 2 (M / 3600000) ++ ':' :: fmtNat 2 (M / 60000 % 60) ++
    ':' :: fmtNat 2 (M / 1000 % 60) ++ ',' :: fmtNat 3 (M % 1000)⟩

/-- The timestamp decomposition exactly as the spec states it (§4.1), with
milliseconds ROUNDED: hours = floor(seconds/3600) zero-padded to ≥ 2
digits, minutes = floor((seconds mod 3600)/60), whole seconds =
floor(seconds mod 60), milliseconds = round((seconds − floor(seconds)) ×
1000). -/
def spec_timestamp_round (q : ℚ) : String :=
  let hours : Nat := (⌊q / 3600⌋).toNat
  let minutes : Nat := (⌊(q - 3600 * (⌊q / 3600⌋ : ℚ)) / 60⌋).toNat
  let seconds : Nat := (⌊q - 60 * (⌊q / 60⌋ : ℚ)⌋).toNat
  let milliseconds : Nat := (round ((q - (⌊q⌋ : ℚ)) * 1000)).toNat
  ⟨fmtNat 2 hours ++ ':' :: fmtNat 2 minutes ++ ':' :: fmtNat 2 seconds ++
    ',' :: fmtNat 3 milliseconds⟩

/-- The spec decomposition of §4.1 with the milliseconds field amended to
truncation, `floor((seconds − floor(seconds)) × 1000)`, which is what
Python `int(...)` computes on a nonnegative value. -/
def spec_timestamp_trunc (q : ℚ) : String :=
  let hours : Nat := (⌊q / 3600⌋).toNat
  let minutes : Nat := (⌊(q - 3600 * (⌊q / 3600⌋ : ℚ)) / 60⌋).toNat
  let seconds : Nat := (⌊q - 60 * (⌊q / 60⌋ : ℚ)⌋).toNat
  let milliseconds : Nat := (⌊(q - (⌊q⌋ : ℚ)) * 1000⌋).toNat
  ⟨fmtNat 2 hours ++ ':' :: fmtNat 2 minutes ++ ':' :: fmtNat 2 seconds ++
    ',' :: fmtNat 3 milliseconds⟩

/-! ## Segments and the SRT serializer (`write_srt`, source lines 121–140) -/

/-- One transcribed segment, as consumed from `result["segments"]`. -/
structure Segment where
  start : ℚ
  stop : ℚ
  text : String
deriving Repr, DecidableEq, Inhabited

/-- Python `str.strip()`: drop leading and trailing whitespace. -/
def pyStrip (s : String) : String :=
  ⟨(((s.data.dropWhile Char.isWhitespace).reverse).dropWhile
      Char.isWhitespace).reverse⟩

/-- The text the loop body of `write_srt` emits for the segment at 1-based
index `i`:
```python
f.write(f"{i}\n")
f.write(f"{start_time} --> {end_time}\n")
f.write(f"{text}\n\n")
``` -/
def srtBlock (i : Nat) (seg : Segment) : String :=
  ⟨decDigits i⟩ ++ "\n" ++
    sec_to_timestamp seg.start ++ " --> " ++ sec_to_timestamp seg.stop ++
    "\n" ++ pyStrip seg.text ++ "\n\n"

/-- The `for i, seg in enumerate(segments, start=1)` loop, threading the
running index. -/
def write_srtAux : Nat → List Segment → String
  | _, [] => ""
  | i, seg :: rest => srtBlock i seg ++ write_srtAux (i + 1) rest

/-- The full document `write_srt` writes to the subtitle file. -/
def write_srt (segments : List Segment) : String := write_srtAux 1 segments

/-- Emit one line, as the spec phrases it. -/
def specLine (s : String) : String := s ++ "\n"

/-- One block as the spec states it (§4.2): index line `i`, then the line
`encode(start) --> encode(end)`, then the stripped text, then a blank
separator line. -/
def spec_block (i : Nat) (seg : Segment) : String :=
  specLine ⟨decDigits i⟩ ++
    specLine (sec_to_timestamp seg.start ++ " --> " ++
      sec_to_timestamp seg.stop) ++
    specLine (pyStrip seg.text) ++ specLine ""

/-- Concatenation of a list of strings (the document as a sequence of
emitted blocks). -/
def concatAll (l : List String) : String := l.foldr (· ++ ·) ""

/-! ## Model selection (`model_map`, source lines 74–87) -/

/-- Python `str.lower()` (the selectors are ASCII). -/
def pyLower (s : String) : String := ⟨s.data.map Char.toLower⟩

/-- The fixed selector table of `generate_srt`. -/
def model_map : List (String × String) :=
  [("tiny", "mlx-community/whisper-tiny-mlx"),
   ("base", "mlx-community/whisper-base-mlx"),
   ("small", "mlx-community/whisper-small-mlx"),
   ("medium", "mlx-community/whisper-medium-mlx"),
   ("large", "mlx-community/whisper-large-v3-mlx"),
   ("large-4bit", "mlx-community/whisper-large-v3-mlx-4bit"),
   ("turbo", "mlx-community/whisper-large-v3-turbo"),
   ("turbo-4bit", "mlx-community/whisper-large-v3-turbo-q4")]

/-- The documented default model identifier (the second argument of
`model_map.get`). -/
def default_model : String := "mlx-community/whisper-large-v3-turbo-q4"

/-- `model_map.get(model_size.lower(), default)` from the source. -/
def lookupModel (model_size : String) : String :=
  (model_map.lookup (pyLower model_size)).getD default_model

/-! ## Filesystem model and path derivation -/

/-- The filesystem: which absolute paths currently exist. -/
abbrev FS := String → Bool

/-- Record that a path now exists (a completed file write). -/
def FS.write (fs : FS) (p : String) : FS := fun x => x == p || fs x

/-- The working directory the code creates and changes into.  The model
keys the filesystem by absolute paths, so this stands for the absolute
path of `whisper_workspace` under the invocation directory. -/
def workspace_dir : String := "whisper_workspace"

/-- `os.path.abspath` for a path relative to the working directory. -/
def abspath (f : String) : String := workspace_dir ++ "/" ++ f

/-- The suffix of `cs` after the last occurrence of `sep`, or `cs` itself
when `sep` does not occur: the value of Python `cs.split(sep)[-1]` (the
separator `"watch?v="` cannot overlap itself, so taking the last match
position agrees with the split semantics). -/
def lastSplitSuffix (sep cs : List Char) : List Char :=
  match ((List.range (cs.length + 1)).filter
      (fun i => sep.isPrefixOf (cs.drop i))).getLast? with
  | some i => (cs.drop i).drop sep.length
  | none => cs

/-- The video id computed by `download_youtube_audio`: the first 11
characters of the last piece of the url split on `watch?v=`. -/
def video_id (url : String) : String :=
  ⟨(lastSplitSuffix ("watch?v=".data) url.data).take 11⟩

/-- The expected audio file name: `youtube_`, the video id, a dot, the
requested format. -/
def expected_file (url fmt : String) : String :=
  "youtube_" ++ video_id url ++ "." ++ fmt

/-- Outcome of `download_youtube_audio`: the returned path (or `None`), the
filesystem afterwards, and whether the external `yt-dlp` subprocess was
invoked. -/
structure DownloadResult where
  result : Option String
  fs : FS
  invoked : Bool

/-- `download_youtube_audio` (source lines 8–57).  The `yt-dlp` subprocess
is the oracle `dl`, returning the filesystem it leaves behind and whether
it succeeded (`subprocess.run(..., check=True)` raises on failure, caught
by the `except` clause, which returns `None`). -/
def download_youtube_audio (dl : FS → FS × Bool) (url fmt : String)
    (fs : FS) : DownloadResult :=
  if url = "" then ⟨none, fs, false⟩
  else
    let ef := expected_file url fmt
    if fs (abspath ef) then ⟨some (abspath ef), fs, false⟩
    else
      let r := dl fs
      if r.2 then
        if r.1 (abspath ef) then ⟨some (abspath ef), r.1, true⟩
        else ⟨none, r.1, true⟩
      else ⟨none, r.1, true⟩

/-- Index of the last occurrence of `c` in `cs`, if any. -/
def lastIdxOf (c : Char) (cs : List Char) : Option Nat :=
  match cs.reverse.findIdx? (· == c) with
  | some k => some (cs.length - 1 - k)
  | none => none

/-- `os.path.splitext(p)[0]`: everything before the extension.  The
extension starts at the last dot, provided it lies in the final path
component and that component does not consist solely of dots up to it. -/
def splitextBase (p : String) : String :=
  let cs := p.data
  match lastIdxOf '.' cs with
  | none => p
  | some d =>
    let sep := match lastIdxOf '/' cs with
      | some s => s + 1
      | none => 0
    if d < sep then p
    else if ((cs.drop sep).take (d - sep)).all (· == '.') then p
    else ⟨cs.take d⟩

/-- `f"{base_name}_{model_short_name}_{counter:02d}.srt"`. -/
def srt_candidate (base model : String) (c : Nat) : String :=
  base ++ "_" ++ model ++ "_" ++ ⟨fmtNat 2 c⟩ ++ ".srt"

/-- The `while os.path.exists(srt_path)` loop of `generate_srt` (source
lines 104–109), fuel-bounded: `none` means the fuel ran out, which cannot
happen on a filesystem with finitely many files. -/
def srt_path_loop (fs : FS) (base model : String) : Nat → Nat → Option String
  | 0, _ => none
  | fuel + 1, c =>
    let p := srt_candidate base model c
    if fs p then srt_path_loop fs base model fuel (c + 1) else some p

/-- The subtitle-path resolution of `generate_srt` (source lines 99–109):
start from `{base}_{model}.srt`; while the current candidate exists, move
to the numbered candidate, with the counter starting at 2. -/
def resolve_srt_path (fs : FS) (base model : String) (fuel : Nat) :
    Option String :=
  let base_path := base ++ "_" ++ model ++ ".srt"
  if fs base_path then srt_path_loop fs base model fuel 2 else some base_path

/-- Outcome of `generate_srt`: returned path (or `None`), filesystem
afterwards, and whether the transcription engine was invoked. -/
structure GenResult where
  result : Option String
  fs : FS
  transcribed : Bool

/-- `generate_srt` (source lines 59–119).  The transcription engine is the
oracle `transcribe`, taking the audio path, the resolved model identifier
and the optional language (`None` models the omitted keyword argument when
the language is `"auto"`); an oracle result of `none` models an exception,
caught by the `except` clause.  The filesystem only tracks which paths
exist; the written document itself is `write_srt` of the returned
segments, verified separately. -/
def generate_srt
    (transcribe : String → String → Option String → Option (List Segment))
    (fuel : Nat) (fs : FS) (audio_file model_size language : String) :
    GenResult :=
  if fs audio_file = false then ⟨none, fs, false⟩
  else
    let model_path := lookupModel model_size
    let lang : Option String :=
      if pyLower language = "auto" then none else some language
    match transcribe audio_file model_path lang with
    | none => ⟨none, fs, true⟩
    | some _ =>
      let base_name := splitextBase audio_file
      let model_short := pyLower model_size
      match resolve_srt_path fs base_name model_short fuel with
      | none => ⟨none, fs, true⟩
      | some srt_path => ⟨some srt_path, fs.write srt_path, true⟩

/-- Outcome of the whole pipeline: returned subtitle path (or `None`),
final filesystem, and whether each external stage was invoked. -/
structure PipelineResult where
  result : Option String
  fs : FS
  downloaded : Bool
  transcribed : Bool

/-- `process_youtube_to_srt` (source lines 142–162): acquisition, then
transcription and serialization; a falsy audio path aborts before the
transcription stage. -/
def process_youtube_to_srt (dl : FS → FS × Bool)
    (transcribe : String → String → Option String → Option (List Segment))
    (fuel : Nat) (url audio_format model_size language : String) (fs : FS) :
    PipelineResult :=
  let d := download_youtube_audio dl url audio_format fs
  match d.result with
  | none => ⟨none, d.fs, d.invoked, false⟩
  | some audio_path =>
    let g := generate_srt transcribe fuel d.fs audio_path model_size language
    ⟨g.result, g.fs, d.invoked, g.transcribed⟩

/-! ## Theorems

First the arithmetic bridge: `ratFloor` is `Int.floor`, and on a
nonnegative input `sec_to_timestamp` is `timestampOfMs` of the total whole
milliseconds. -/

theorem ratFloor_eq_floor (q : ℚ) : ratFloor q = ⌊q⌋ := by
  rw [Rat.floor_def, ratFloor]
  exact Int.fdiv_eq_ediv _ (Int.natCast_nonneg q.den)

theorem floor_div_natCast (q : ℚ) (n : ℕ) (hn : 0 < n) :
    ⌊q / (n : ℚ)⌋ = ⌊q⌋ / (n : ℤ) := by
  have hnq : (0 : ℚ) < (n : ℚ) := by exact_mod_cast hn
  have hnz : (n : ℤ) ≠ 0 := by exact_mod_cast hn.ne'
  have hnzpos : (0 : ℤ) < (n : ℤ) := by exact_mod_cast hn
  rw [Int.floor_eq_iff]
  constructor
  · rw [le_div_iff₀ hnq]
    have h1 : (⌊q⌋ / (n : ℤ)) * (n : ℤ) ≤ ⌊q⌋ := Int.ediv_mul_le _ hnz
    have h2 : (((⌊q⌋ / (n : ℤ)) * (n : ℤ) : ℤ) : ℚ) ≤ ((⌊q⌋ : ℤ) : ℚ) := by
      exact_mod_cast h1
    have h3 := Int.floor_le q
    push_cast at h2 ⊢
    linarith
  · rw [div_lt_iff₀ hnq]
    have h3 : ⌊q⌋ + 1 ≤ (⌊q⌋ / (n : ℤ) + 1) * (n : ℤ) :=
      Int.add_one_le_iff.mpr (Int.lt_ediv_add_one_mul_self _ hnzpos)
    have h4 : ((⌊q⌋ + 1 : ℤ) : ℚ) ≤ (((⌊q⌋ / (n : ℤ) + 1) * (n : ℤ) : ℤ) : ℚ) := by
      exact_mod_cast h3
    have h5 := Int.lt_floor_add_one q
    push_cast at h4 ⊢
    linarith

theorem fmtInt_natCast (w k : ℕ) : fmtInt w (k : ℤ) = fmtNat w k := by
  rw [fmtInt, if_neg (not_lt.mpr (Int.natCast_nonneg k)), Int.toNat_natCast]

theorem sec_to_timestamp_eq (q : ℚ) (hq : 0 ≤ q) :
    sec_to_timestamp q = timestampOfMs (⌊q * 1000⌋).toNat := by
  have hfl : (0 : ℤ) ≤ ⌊q⌋ := Int.floor_nonneg.mpr hq
  have h3600 : ⌊q / 3600⌋ = ⌊q⌋ / 3600 := by
    have h := floor_div_natCast q 3600 (by norm_num)
    norm_num at h
    exact h
  have h60 : ⌊q / 60⌋ = ⌊q⌋ / 60 := by
    have h := floor_div_natCast q 60 (by norm_num)
    norm_num at h
    exact h
  have hMl : 1000 * ⌊q⌋ ≤ ⌊q * 1000⌋ := by
    rw [Int.le_floor]
    have := Int.floor_le q
    push_cast
    nlinarith
  have hMu : ⌊q * 1000⌋ < 1000 * ⌊q⌋ + 1000 := by
    rw [Int.floor_lt]
    have := Int.lt_floor_add_one q
    push_cast
    nlinarith
  have e_h : ratFloor (q / 3600) = ⌊q⌋ / 3600 := by rw [ratFloor_eq_floor, h3600]
  have hpm3600 : pymod q 3600 / 60 = q / 60 - ((60 * (⌊q⌋ / 3600) : ℤ) : ℚ) := by
    rw [pymod, ratFloor_eq_floor, h3600]
    push_cast
    ring
  have e_m : ratFloor (pymod q 3600 / 60) = ⌊q⌋ / 60 - 60 * (⌊q⌋ / 3600) := by
    rw [ratFloor_eq_floor, hpm3600, Int.floor_sub_int, h60]
  have hpm60 : pymod q 60 = q - ((60 * (⌊q⌋ / 60) : ℤ) : ℚ) := by
    rw [pymod, ratFloor_eq_floor, h60]
    push_cast
    ring
  have hpm60_nonneg : 0 ≤ pymod q 60 := by
    rw [hpm60]
    have h1 : (⌊q⌋ / 60) * (60 : ℤ) ≤ ⌊q⌋ :=
      Int.ediv_mul_le _ (by norm_num : (60 : ℤ) ≠ 0)
    have h2 : (((⌊q⌋ / 60) * (60 : ℤ) : ℤ) : ℚ) ≤ ((⌊q⌋ : ℤ) : ℚ) := by
      exact_mod_cast h1
    have h3 := Int.floor_le q
    push_cast at h2 ⊢
    linarith
  have e_s : pyTrunc (pymod q 60) = ⌊q⌋ % 60 := by
    rw [pyTrunc, if_neg (not_lt.mpr hpm60_nonneg), ratFloor_eq_floor, hpm60,
      Int.floor_sub_int, Int.emod_def]
  have e_trunc : pyTrunc q = ⌊q⌋ := by
    rw [pyTrunc, if_neg (not_lt.mpr hq), ratFloor_eq_floor]
  have hfrac_nonneg : 0 ≤ (q - ((⌊q⌋ : ℤ) : ℚ)) * 1000 := by
    have := Int.floor_le q
    nlinarith
  have e_ms : pyTrunc ((q - ((pyTrunc q : ℤ) : ℚ)) * 1000) =
      ⌊q * 1000⌋ - 1000 * ⌊q⌋ := by
    rw [e_trunc, pyTrunc, if_neg (not_lt.mpr hfrac_nonneg), ratFloor_eq_floor]
    have hre : (q - ((⌊q⌋ : ℤ) : ℚ)) * 1000 = q * 1000 - ((1000 * ⌊q⌋ : ℤ) : ℚ) := by
      push_cast
      ring
    rw [hre, Int.floor_sub_int]
  simp only [sec_to_timestamp, timestampOfMs]
  rw [e_h, e_m, e_s, e_ms]
  obtain ⟨N, hN⟩ : ∃ N : ℕ, ⌊q⌋ = (N : ℤ) :=
    ⟨(⌊q⌋).toNat, (Int.toNat_of_nonneg hfl).symm⟩
  obtain ⟨MM, hMM⟩ : ∃ M : ℕ, ⌊q * 1000⌋ = (M : ℤ) :=
    ⟨(⌊q * 1000⌋).toNat, (Int.toNat_of_nonneg (by linarith)).symm⟩
  rw [hN, hMM] at hMl hMu ⊢
  have a1 : ((N : ℤ)) / 3600 = ((N / 3600 : ℕ) : ℤ) := by omega
  have a2 : (N : ℤ) / 60 - 60 * ((N : ℤ) / 3600) = ((N / 60 % 60 : ℕ) : ℤ) := by
    omega
  have a3 : (N : ℤ) % 60 = ((N % 60 : ℕ) : ℤ) := by omega
  have a4 : (MM : ℤ) - 1000 * (N : ℤ) = ((MM % 1000 : ℕ) : ℤ) := by omega
  rw [a2, a1, a3, a4, fmtInt_natCast, fmtInt_natCast, fmtInt_natCast,
    fmtInt_natCast, Int.toNat_natCast]
  have b1 : N / 3600 = MM / 3600000 := by omega
  have b2 : N / 60 % 60 = MM / 60000 % 60 := by omega
  have b3 : N % 60 = MM / 1000 % 60 := by omega
  rw [b1, b2, b3]

theorem sec_to_timestamp_eq_ofMs (q : ℚ) (M : ℕ) (hq : 0 ≤ q)
    (h : ⌊q * 1000⌋ = (M : ℤ)) : sec_to_timestamp q = timestampOfMs M := by
  rw [sec_to_timestamp_eq q hq, h, Int.toNat_natCast]

/-- The hour field of the millisecond count is the hour floor of the time. -/
theorem ms_hour_eq (q : ℚ) (hq : 0 ≤ q) :
    (⌊q * 1000⌋).toNat / 3600000 = (⌊q / 3600⌋).toNat := by
  have hfl : (0 : ℤ) ≤ ⌊q⌋ := Int.floor_nonneg.mpr hq
  have h3600 : ⌊q / 3600⌋ = ⌊q⌋ / 3600 := by
    have h := floor_div_natCast q 3600 (by norm_num)
    norm_num at h
    exact h
  have hMl : 1000 * ⌊q⌋ ≤ ⌊q * 1000⌋ := by
    rw [Int.le_floor]
    have := Int.floor_le q
    push_cast
    nlinarith
  have hMu : ⌊q * 1000⌋ < 1000 * ⌊q⌋ + 1000 := by
    rw [Int.floor_lt]
    have := Int.lt_floor_add_one q
    push_cast
    nlinarith
  rw [h3600]
  omega

/-! ### Digit lists and lexicographic comparison -/

theorem decDigitsAux_length_le (fuel : ℕ) :
    ∀ (n : ℕ) (acc : List Char),
      acc.length ≤ (decDigitsAux fuel n acc).length := by
  induction fuel with
  | zero => intro n acc; simp [decDigitsAux]
  | succ f ih =>
    intro n acc
    rw [decDigitsAux]
    by_cases h : n < 10
    · simp [h]
    · simp only [h, if_false]
      calc acc.length ≤ (digitChar (n % 10) :: acc).length := by simp
        _ ≤ _ := ih (n / 10) _

theorem decDigits_length_pos (n : ℕ) : 1 ≤ (decDigits n).length := by
  rw [decDigits, decDigitsAux]
  by_cases h : n < 10
  · simp [h]
  · simp only [h, if_false]
    calc 1 = ([digitChar (n % 10)] : List Char).length := by simp
      _ ≤ _ := decDigitsAux_length_le n (n / 10) _

theorem fmtNat_length_ge (w n : ℕ) : w ≤ (fmtNat w n).length := by
  have := decDigits_length_pos n
  simp only [fmtNat, List.length_append, List.length_replicate]
  omega

theorem fmtNat_two_eq :
    ∀ k < 100, fmtNat 2 k = [digitChar (k / 10), digitChar (k % 10)] := by
  decide

set_option maxRecDepth 40000 in
theorem fmtNat_three_eq :
    ∀ k < 1000,
      fmtNat 3 k = [digitChar (k / 100), digitChar (k / 10 % 10),
        digitChar (k % 10)] := by
  decide

theorem fmtNat_two_length : ∀ k < 100, (fmtNat 2 k).length = 2 := by decide

set_option maxRecDepth 40000 in
theorem fmtNat_three_length : ∀ k < 1000, (fmtNat 3 k).length = 3 := by decide

theorem digitChar_lt :
    ∀ a < 10, ∀ b < 10, a < b → digitChar a < digitChar b := by decide

theorem lex_append_left (p : List Char) {s t : List Char}
    (h : List.Lex (· < ·) s t) : List.Lex (· < ·) (p ++ s) (p ++ t) := by
  induction p with
  | nil => exact h
  | cons c cs ih => exact List.Lex.cons ih

theorem lex_twoDigits {m₁ m₂ : ℕ} (h₁ : m₁ < 100) (h₂ : m₂ < 100)
    (h : m₁ < m₂) (s t : List Char) :
    List.Lex (· < ·) (digitChar (m₁ / 10) :: digitChar (m₁ % 10) :: s)
      (digitChar (m₂ / 10) :: digitChar (m₂ % 10) :: t) := by
  rcases Nat.lt_or_ge (m₁ / 10) (m₂ / 10) with hd | hd
  · exact List.Lex.rel (digitChar_lt _ (by omega) _ (by omega) hd)
  · have hde : m₁ / 10 = m₂ / 10 := by omega
    rw [hde]
    exact List.Lex.cons
      (List.Lex.rel (digitChar_lt _ (by omega) _ (by omega) (by omega)))

theorem lex_threeDigits {t₁ t₂ : ℕ} (h₁ : t₁ < 1000) (h₂ : t₂ < 1000)
    (h : t₁ < t₂) (s t : List Char) :
    List.Lex (· < ·)
      (digitChar (t₁ / 100) :: digitChar (t₁ / 10 % 10) ::
        digitChar (t₁ % 10) :: s)
      (digitChar (t₂ / 100) :: digitChar (t₂ / 10 % 10) ::
        digitChar (t₂ % 10) :: t) := by
  rcases Nat.lt_or_ge (t₁ / 100) (t₂ / 100) with hd | hd
  · exact List.Lex.rel (digitChar_lt _ (by omega) _ (by omega) hd)
  · have hde : t₁ / 100 = t₂ / 100 := by omega
    rw [hde]
    have e₁ : t₁ / 10 % 10 = (t₁ % 100) / 10 := by omega
    have e₂ : t₂ / 10 % 10 = (t₂ % 100) / 10 := by omega
    have e₃ : t₁ % 10 = (t₁ % 100) % 10 := by omega
    have e₄ : t₂ % 10 = (t₂ % 100) % 10 := by omega
    rw [e₁, e₂, e₃, e₄]
    exact List.Lex.cons
      (lex_twoDigits (by omega) (by omega) (by omega) s t)

theorem timestampOfMs_le {M₁ M₂ : ℕ} (h : M₁ ≤ M₂)
    (hh : M₁ / 3600000 = M₂ / 3600000) :
    timestampOfMs M₁ ≤ timestampOfMs M₂ := by
  rcases Nat.eq_or_lt_of_le h with heq | hlt
  · rw [heq]
  apply le_of_lt
  rw [String.lt_iff_toList_lt]
  show List.Lex (· < ·)
    (fmtNat 2 (M₁ / 3600000) ++ ':' :: fmtNat 2 (M₁ / 60000 % 60) ++
      ':' :: fmtNat 2 (M₁ / 1000 % 60) ++ ',' :: fmtNat 3 (M₁ % 1000))
    (fmtNat 2 (M₂ / 3600000) ++ ':' :: fmtNat 2 (M₂ / 60000 % 60) ++
      ':' :: fmtNat 2 (M₂ / 1000 % 60) ++ ',' :: fmtNat 3 (M₂ % 1000))
  rw [hh]
  simp only [List.append_assoc]
  apply lex_append_left
  apply List.Lex.cons
  rcases Nat.lt_or_ge (M₁ / 60000 % 60) (M₂ / 60000 % 60) with hm | hm
  · rw [fmtNat_two_eq (M₁ / 60000 % 60) (by omega),
      fmtNat_two_eq (M₂ / 60000 % 60) (by omega)]
    exact lex_twoDigits (by omega) (by omega) hm _ _
  · have hme : M₁ / 60000 % 60 = M₂ / 60000 % 60 := by omega
    rw [hme]
    apply lex_append_left
    apply List.Lex.cons
    rcases Nat.lt_or_ge (M₁ / 1000 % 60) (M₂ / 1000 % 60) with hs | hs
    · rw [fmtNat_two_eq (M₁ / 1000 % 60) (by omega),
        fmtNat_two_eq (M₂ / 1000 % 60) (by omega)]
      exact lex_twoDigits (by omega) (by omega) hs _ _
    · have hse : M₁ / 1000 % 60 = M₂ / 1000 % 60 := by omega
      rw [hse]
      apply lex_append_left
      apply List.Lex.cons
      have hms : M₁ % 1000 < M₂ % 1000 := by omega
      rw [fmtNat_three_eq (M₁ % 1000) (by omega),
        fmtNat_three_eq (M₂ % 1000) (by omega)]
      exact lex_threeDigits (by omega) (by omega) hms _ _

/-- The four field values of the spec decomposition (§4.1, truncating
milliseconds), expressed through the total whole milliseconds. -/
theorem spec_fields (q : ℚ) (hq : 0 ≤ q) :
    (⌊q / 3600⌋).toNat = (⌊q * 1000⌋).toNat / 3600000 ∧
    (⌊(q - 3600 * ((⌊q / 3600⌋ : ℤ) : ℚ)) / 60⌋).toNat =
      (⌊q * 1000⌋).toNat / 60000 % 60 ∧
    (⌊q - 60 * ((⌊q / 60⌋ : ℤ) : ℚ)⌋).toNat =
      (⌊q * 1000⌋).toNat / 1000 % 60 ∧
    (⌊(q - ((⌊q⌋ : ℤ) : ℚ)) * 1000⌋).toNat = (⌊q * 1000⌋).toNat % 1000 := by
  have hfl : (0 : ℤ) ≤ ⌊q⌋ := Int.floor_nonneg.mpr hq
  have h3600 : ⌊q / 3600⌋ = ⌊q⌋ / 3600 := by
    have h := floor_div_natCast q 3600 (by norm_num)
    norm_num at h
    exact h
  have h60 : ⌊q / 60⌋ = ⌊q⌋ / 60 := by
    have h := floor_div_natCast q 60 (by norm_num)
    norm_num at h
    exact h
  have hMl : 1000 * ⌊q⌋ ≤ ⌊q * 1000⌋ := by
    rw [Int.le_floor]
    have := Int.floor_le q
    push_cast
    nlinarith
  have hMu : ⌊q * 1000⌋ < 1000 * ⌊q⌋ + 1000 := by
    rw [Int.floor_lt]
    have := Int.lt_floor_add_one q
    push_cast
    nlinarith
  have e_m : ⌊(q - 3600 * ((⌊q / 3600⌋ : ℤ) : ℚ)) / 60⌋ =
      ⌊q⌋ / 60 - 60 * (⌊q⌋ / 3600) := by
    rw [h3600]
    have hre : (q - 3600 * (((⌊q⌋ / 3600 : ℤ) : ℤ) : ℚ)) / 60 =
        q / 60 - ((60 * (⌊q⌋ / 3600) : ℤ) : ℚ) := by
      push_cast
      ring
    rw [hre, Int.floor_sub_int, h60]
  have e_s : ⌊q - 60 * ((⌊q / 60⌋ : ℤ) : ℚ)⌋ = ⌊q⌋ - 60 * (⌊q⌋ / 60) := by
    rw [h60]
    have hre : q - 60 * (((⌊q⌋ / 60 : ℤ) : ℤ) : ℚ) =
        q - ((60 * (⌊q⌋ / 60) : ℤ) : ℚ) := by
      push_cast
      ring
    rw [hre, Int.floor_sub_int]
  have e_ms : ⌊(q - ((⌊q⌋ : ℤ) : ℚ)) * 1000⌋ = ⌊q * 1000⌋ - 1000 * ⌊q⌋ := by
    have hre : (q - ((⌊q⌋ : ℤ) : ℚ)) * 1000 =
        q * 1000 - ((1000 * ⌊q⌋ : ℤ) : ℚ) := by
      push_cast
      ring
    rw [hre, Int.floor_sub_int]
  rw [e_m, e_s, e_ms, h3600]
  obtain ⟨N, hN⟩ : ∃ n : ℕ, ⌊q⌋ = (n : ℤ) :=
    ⟨(⌊q⌋).toNat, (Int.toNat_of_nonneg hfl).symm⟩
  obtain ⟨MM, hMM⟩ : ∃ m : ℕ, ⌊q * 1000⌋ = (m : ℤ) :=
    ⟨(⌊q * 1000⌋).toNat, (Int.toNat_of_nonneg (by linarith)).symm⟩
  rw [hN, hMM] at hMl hMu ⊢
  refine ⟨by omega, by omega, by omega, by omega⟩

/-- On a nonnegative input the spec decomposition with truncated
milliseconds also equals the closed millisecond form. -/
theorem spec_timestamp_trunc_eq (q : ℚ) (hq : 0 ≤ q) :
    spec_timestamp_trunc q = timestampOfMs (⌊q * 1000⌋).toNat := by
  obtain ⟨f1, f2, f3, f4⟩ := spec_fields q hq
  simp only [spec_timestamp_trunc, timestampOfMs]
  rw [f1, f2, f3, f4]

theorem sec_to_timestamp_zero : sec_to_timestamp 0 = "00:00:00,000" := by
  rw [sec_to_timestamp_eq_ofMs 0 0 le_rfl (by norm_num)]
  decide

theorem sec_to_timestamp_three_halves :
    sec_to_timestamp (3 / 2) = "00:00:01,500" := by
  rw [sec_to_timestamp_eq_ofMs (3 / 2) 1500 (by norm_num)
    (Int.floor_eq_iff.mpr (by norm_num))]
  decide

/-! ### Serializer lemmas -/

/-- The loop body emits exactly one spec block. -/
theorem srtBlock_eq_spec_block (i : Nat) (seg : Segment) :
    srtBlock i seg = spec_block i seg := by
  simp only [srtBlock, spec_block, specLine, String.append_assoc]
  rfl

theorem write_srtAux_enumFrom (segs : List Segment) :
    ∀ i : Nat, write_srtAux i segs =
      concatAll ((segs.enumFrom i).map fun p => spec_block p.1 p.2) := by
  induction segs with
  | nil => intro i; rfl
  | cons s rest ih =>
    intro i
    rw [write_srtAux, srtBlock_eq_spec_block, ih (i + 1), List.enumFrom_cons,
      List.map_cons]
    rfl

theorem spec_timestamp_round_at_cx :
    spec_timestamp_round (15 / 16) = "00:00:00,938" := by
  have h1 : ⌊(15 / 16 : ℚ) / 3600⌋ = 0 := Int.floor_eq_iff.mpr (by norm_num)
  have h2 : ⌊(15 / 16 : ℚ) / 60⌋ = 0 := Int.floor_eq_iff.mpr (by norm_num)
  have h3 : ⌊(15 / 16 : ℚ)⌋ = 0 := Int.floor_eq_iff.mpr (by norm_num)
  have h5 : round ((15 / 16 : ℚ) * 1000) = 938 := by
    rw [round_eq]
    exact Int.floor_eq_iff.mpr (by norm_num)
  simp only [spec_timestamp_round, h1, h2, h3, h5, Int.cast_zero, mul_zero,
    sub_zero]
  decide

/-- C2, counterexample: at the input `15/16` (the float `0.9375`) the code
truncates the fractional milliseconds `937.5` to `937`, while the
decomposition stated in the spec, with `round`, yields `938`. -/
theorem C2_counterexample :
    sec_to_timestamp (15 / 16) ≠ spec_timestamp_round (15 / 16) := by
  have hL : sec_to_timestamp (15 / 16) = "00:00:00,937" := by
    rw [sec_to_timestamp_eq_ofMs (15 / 16) 937 (by norm_num)
      (Int.floor_eq_iff.mpr (by norm_num))]
    decide
  rw [hL, spec_timestamp_round_at_cx]
  decide

/-- C2 (amended): for every `seconds ≥ 0` the encoder returns
`HH:MM:SS,mmm` with hours = floor(seconds/3600) zero-padded to at least 2
digits, minutes = floor((seconds mod 3600)/60) and whole seconds =
floor(seconds mod 60) each exactly 2 digits, and milliseconds =
floor((seconds − floor(seconds)) × 1000) — truncation, not rounding —
exactly 3 digits. -/
theorem C2_timestamp_decomposition (q : ℚ) (hq : 0 ≤ q) :
    sec_to_timestamp q = spec_timestamp_trunc q ∧
    2 ≤ (fmtNat 2 ((⌊q / 3600⌋).toNat)).length ∧
    (fmtNat 2 ((⌊(q - 3600 * ((⌊q / 3600⌋ : ℤ) : ℚ)) / 60⌋).toNat)).length = 2 ∧
    (fmtNat 2 ((⌊q - 60 * ((⌊q / 60⌋ : ℤ) : ℚ)⌋).toNat)).length = 2 ∧
    (fmtNat 3 ((⌊(q - ((⌊q⌋ : ℤ) : ℚ)) * 1000⌋).toNat)).length = 3 := by
  obtain ⟨f1, f2, f3, f4⟩ := spec_fields q hq
  refine ⟨?_, fmtNat_length_ge 2 _, ?_, ?_, ?_⟩
  · rw [sec_to_timestamp_eq q hq, spec_timestamp_trunc_eq q hq]
  · rw [f2]
    exact fmtNat_two_length _ (by omega)
  · rw [f3]
    exact fmtNat_two_length _ (by omega)
  · rw [f4]
    exact fmtNat_three_length _ (by omega)

theorem C2_witness :
    sec_to_timestamp (7323 / 2) = spec_timestamp_trunc (7323 / 2) :=
  (C2_timestamp_decomposition (7323 / 2) (by norm_num)).1

/-- C9: for inputs `0 ≤ a ≤ b` in the same hour (equal hour floors), the
encoded timestamp of `a` is lexicographically at most that of `b`. -/
theorem C9_encoder_monotone (a b : ℚ) (ha : 0 ≤ a) (hab : a ≤ b)
    (hh : ⌊a / 3600⌋ = ⌊b / 3600⌋) :
    sec_to_timestamp a ≤ sec_to_timestamp b := by
  have hb : 0 ≤ b := ha.trans hab
  rw [sec_to_timestamp_eq a ha, sec_to_timestamp_eq b hb]
  apply timestampOfMs_le
  · have hm : ⌊a * 1000⌋ ≤ ⌊b * 1000⌋ := Int.floor_mono (by nlinarith)
    omega
  · rw [ms_hour_eq a ha, ms_hour_eq b hb, hh]

theorem C9_witness : sec_to_timestamp 0 ≤ sec_to_timestamp 1 :=
  C9_encoder_monotone 0 1 le_rfl zero_le_one (by
    have h1 : ((0 : ℚ) / 3600) = 0 := by norm_num
    have h2 : ⌊(1 : ℚ) / 3600⌋ = 0 := Int.floor_eq_iff.mpr (by norm_num)
    rw [h1, h2, Int.floor_zero])

/-- C4: the serializer emits, for each segment at 1-based position `i`, the
index line `i`, the timing line `encode(start) --> encode(end)`, the
stripped text and a blank separator line; in particular the single segment
`{0.0, 1.5, "hi"}` serializes to exactly
`"1\n00:00:00,000 --> 00:00:01,500\nhi\n\n"`. -/
theorem C4_serializer_format :
    (∀ segs : List Segment,
      write_srt segs =
        concatAll ((segs.enumFrom 1).map fun p => spec_block p.1 p.2)) ∧
    write_srt [{ start := 0, stop := 3 / 2, text := "hi" }] =
      "1\n00:00:00,000 --> 00:00:01,500\nhi\n\n" := by
  constructor
  · intro segs
    exact write_srtAux_enumFrom segs 1
  · simp only [write_srt, write_srtAux, String.append_empty, srtBlock]
    rw [sec_to_timestamp_zero, sec_to_timestamp_three_halves]
    decide

set_option maxHeartbeats 1000000 in
/-- C7: serializing any sequence of `N` segments — in any order, with no
validation that `end ≥ start` — yields exactly `N` blocks, whose indices
are `1..N` in input order and whose timings are those of the segments
themselves, passed through unchanged. -/
theorem C7_serializer_passthrough (segs : List Segment) :
    ((segs.enumFrom 1).map fun p => spec_block p.1 p.2).length = segs.length ∧
    write_srt segs =
      concatAll ((segs.enumFrom 1).map fun p => spec_block p.1 p.2) ∧
    ∀ (k : Nat) (hk : k < segs.length)
      (hk' : k < ((segs.enumFrom 1).map fun p => spec_block p.1 p.2).length),
      ((segs.enumFrom 1).map fun p => spec_block p.1 p.2).get ⟨k, hk'⟩ =
        spec_block (k + 1) (segs.get ⟨k, hk⟩) := by
  refine ⟨by simp, write_srtAux_enumFrom segs 1, ?_⟩
  intro k hk hk'
  simp only [List.get_eq_getElem, List.getElem_map, List.getElem_enumFrom]
  rw [Nat.add_comm 1 k]

theorem C7_witness :
    (([({ start := 2, stop := 1, text := "x" } : Segment)].enumFrom 1).map
        fun p => spec_block p.1 p.2).get ⟨0, by decide⟩ =
      spec_block (0 + 1)
        ([({ start := 2, stop := 1, text := "x" } : Segment)].get
          ⟨0, by decide⟩) :=
  (C7_serializer_passthrough
    [({ start := 2, stop := 1, text := "x" } : Segment)]).2.2 0 (by decide)
    (by decide)

/-- C8: serializing the empty segment sequence succeeds and produces the
empty document. -/
theorem C8_empty_document : write_srt [] = "" := rfl

/-- C6: the selector-to-model resolution is total and never fails — each
of the eight table selectors maps to its table entry, a selector found in
the table (after lowercasing) maps to its entry, and any selector not in
the table maps to the documented default identifier. -/
theorem C6_model_resolution :
    (∀ s v, model_map.lookup (pyLower s) = some v → lookupModel s = v) ∧
    (∀ s, model_map.lookup (pyLower s) = none →
      lookupModel s = default_model) ∧
    lookupModel "tiny" = "mlx-community/whisper-tiny-mlx" ∧
    lookupModel "base" = "mlx-community/whisper-base-mlx" ∧
    lookupModel "small" = "mlx-community/whisper-small-mlx" ∧
    lookupModel "medium" = "mlx-community/whisper-medium-mlx" ∧
    lookupModel "large" = "mlx-community/whisper-large-v3-mlx" ∧
    lookupModel "large-4bit" = "mlx-community/whisper-large-v3-mlx-4bit" ∧
    lookupModel "turbo" = "mlx-community/whisper-large-v3-turbo" ∧
    lookupModel "turbo-4bit" = "mlx-community/whisper-large-v3-turbo-q4" := by
  refine ⟨?_, ?_, by decide, by decide, by decide, by decide, by decide,
    by decide, by decide, by decide⟩
  · intro s v h
    rw [lookupModel, h]
    rfl
  · intro s h
    rw [lookupModel, h]
    rfl

theorem C6_witness :
    lookupModel "TINY" = "mlx-community/whisper-tiny-mlx" ∧
    lookupModel "huge" = default_model :=
  ⟨C6_model_resolution.1 "TINY" "mlx-community/whisper-tiny-mlx" rfl,
    C6_model_resolution.2.1 "huge" rfl⟩

/-! ### Artifact naming and pipeline claims -/

theorem srt_candidate_two (base model : String) :
    srt_candidate base model 2 = base ++ "_" ++ model ++ "_02.srt" := by
  rw [srt_candidate, show (⟨fmtNat 2 2⟩ : String) = "02" from rfl]
  simp only [String.append_assoc]
  rfl

theorem srt_candidate_three (base model : String) :
    srt_candidate base model 3 = base ++ "_" ++ model ++ "_03.srt" := by
  rw [srt_candidate, show (⟨fmtNat 2 3⟩ : String) = "03" from rfl]
  simp only [String.append_assoc]
  rfl

theorem srt_path_loop_free :
    ∀ (fuel c : Nat) (fs : FS) (base model p : String),
      srt_path_loop fs base model fuel c = some p → fs p = false := by
  intro fuel
  induction fuel with
  | zero =>
    intro c fs base model p h
    simp [srt_path_loop] at h
  | succ f ih =>
    intro c fs base model p h
    simp only [srt_path_loop] at h
    by_cases hc : fs (srt_candidate base model c) = true
    · rw [if_pos hc] at h
      exact ih _ _ _ _ _ h
    · rw [if_neg hc] at h
      injection h with h1
      subst h1
      simpa using hc

/-- C3: the subtitle-path resolver never returns the path of an existing
file; with the base path present and `_02` free it yields the `_02`
suffix, and with the base and `_02` paths present and `_03` free it yields
the `_03` suffix. -/
theorem C3_subtitle_non_collision :
    (∀ (fs : FS) (base model : String) (fuel : Nat) (p : String),
        resolve_srt_path fs base model fuel = some p → fs p = false) ∧
    (∀ (fs : FS) (base model : String) (fuel : Nat),
        fs (base ++ "_" ++ model ++ ".srt") = true →
        fs (base ++ "_" ++ model ++ "_02.srt") = false →
        resolve_srt_path fs base model (fuel + 1) =
          some (base ++ "_" ++ model ++ "_02.srt")) ∧
    (∀ (fs : FS) (base model : String) (fuel : Nat),
        fs (base ++ "_" ++ model ++ ".srt") = true →
        fs (base ++ "_" ++ model ++ "_02.srt") = true →
        fs (base ++ "_" ++ model ++ "_03.srt") = false →
        resolve_srt_path fs base model (fuel + 2) =
          some (base ++ "_" ++ model ++ "_03.srt")) := by
  refine ⟨?_, ?_, ?_⟩
  · intro fs base model fuel p h
    simp only [resolve_srt_path] at h
    by_cases hb : fs (base ++ "_" ++ model ++ ".srt") = true
    · rw [if_pos hb] at h
      exact srt_path_loop_free _ _ _ _ _ _ h
    · rw [if_neg hb] at h
      injection h with h1
      subst h1
      simpa using hb
  · intro fs base model fuel h1 h2
    simp only [resolve_srt_path, srt_path_loop]
    rw [if_pos h1, srt_candidate_two, if_neg (by simp [h2])]
  · intro fs base model fuel h1 h2 h3
    simp only [resolve_srt_path, srt_path_loop]
    rw [if_pos h1, srt_candidate_two, if_pos h2, srt_candidate_three,
      if_neg (by simp [h3])]

theorem C3_witness :
    resolve_srt_path (fun f => f == "a_m.srt") "a" "m" 1 =
      some ("a" ++ "_" ++ "m" ++ "_02.srt") :=
  C3_subtitle_non_collision.2.1 (fun f => f == "a_m.srt") "a" "m" 0 rfl rfl

/-- C1: once the audio resolver has returned a path, calling it again on
the resulting filesystem (with any downloader) returns the identical path,
leaves the filesystem unchanged, and does not invoke the downloader — the
existing file is a cache hit. -/
theorem C1_audio_cache_idempotent (dl dl2 : FS → FS × Bool)
    (url fmt : String) (fs : FS) (p : String) (fs1 : FS) (inv : Bool)
    (h : download_youtube_audio dl url fmt fs = ⟨some p, fs1, inv⟩) :
    download_youtube_audio dl2 url fmt fs1 = ⟨some p, fs1, false⟩ := by
  simp only [download_youtube_audio] at h ⊢
  by_cases hu : url = ""
  · rw [if_pos hu] at h
    simp at h
  · rw [if_neg hu] at h ⊢
    by_cases he : fs (abspath (expected_file url fmt)) = true
    · rw [if_pos he] at h
      injection h with h1 h2 h3
      injection h1 with h1
      subst h1
      subst h2
      rw [if_pos he]
    · rw [if_neg he] at h
      by_cases hr2 : (dl fs).2 = true
      · rw [if_pos hr2] at h
        by_cases hre : (dl fs).1 (abspath (expected_file url fmt)) = true
        · rw [if_pos hre] at h
          injection h with h1 h2 h3
          injection h1 with h1
          subst h1
          subst h2
          rw [if_pos hre]
        · rw [if_neg hre] at h
          simp at h
      · rw [if_neg hr2] at h
        simp at h

theorem C1_witness :
    download_youtube_audio (fun fs => (fs, false)) "u" "mp3"
        (fun f => f == "whisper_workspace/youtube_u.mp3") =
      ⟨some "whisper_workspace/youtube_u.mp3",
        fun f => f == "whisper_workspace/youtube_u.mp3", false⟩ :=
  C1_audio_cache_idempotent (fun fs => (fs, false)) (fun fs => (fs, false))
    "u" "mp3" (fun f => f == "whisper_workspace/youtube_u.mp3")
    "whisper_workspace/youtube_u.mp3"
    (fun f => f == "whisper_workspace/youtube_u.mp3") false rfl

/-- C5: if acquisition reports failure, the pipeline terminates with a
failure result, the transcription stage is never invoked, and the
filesystem is exactly what acquisition left — no subtitle artifact is
created. -/
theorem C5_acquisition_failure_aborts (dl : FS → FS × Bool)
    (tr : String → String → Option String → Option (List Segment))
    (fuel : Nat) (url afmt msize lang : String) (fs : FS)
    (h : (download_youtube_audio dl url afmt fs).result = none) :
    process_youtube_to_srt dl tr fuel url afmt msize lang fs =
      ⟨none, (download_youtube_audio dl url afmt fs).fs,
        (download_youtube_audio dl url afmt fs).invoked, false⟩ := by
  simp only [process_youtube_to_srt, h]

theorem C5_witness :
    process_youtube_to_srt (fun fs => (fs, false)) (fun _ _ _ => none) 0
        "" "mp3" "tiny" "auto" (fun _ => false) =
      ⟨none,
        (download_youtube_audio (fun fs => (fs, false)) "" "mp3"
          (fun _ => false)).fs,
        (download_youtube_audio (fun fs => (fs, false)) "" "mp3"
          (fun _ => false)).invoked, false⟩ :=
  C5_acquisition_failure_aborts (fun fs => (fs, false)) (fun _ _ _ => none)
    0 "" "mp3" "tiny" "auto" (fun _ => false) rfl

/-- C10: on an audio path that does not exist, `generate_srt` fails with
`None`, never invokes the transcription engine, and creates no subtitle
artifact (the filesystem is unchanged). -/
theorem C10_missing_audio_fails
    (tr : String → String → Option String → Option (List Segment))
    (fuel : Nat) (fs : FS) (audio msize lang : String)
    (h : fs audio = false) :
    generate_srt tr fuel fs audio msize lang = ⟨none, fs, false⟩ := by
  simp [generate_srt, h]

theorem C10_witness :
    generate_srt (fun _ _ _ => none) 0 (fun _ => false) "a.mp3" "tiny"
        "auto" = ⟨none, fun _ => false, false⟩ :=
  C10_missing_audio_fails (fun _ _ _ => none) 0 (fun _ => false) "a.mp3"
    "tiny" "auto" rfl

end Yt2Srt
